import Mathlib

/-!
# A verification development for the cupid-8 CHIP-8/SCHIP interpreter

This file shallowly embeds the interpreter core of `src/cupid-8.c` — the
`Chip8` state structure (together with the display-mode globals), the fetch /
decode / execute cycle `emulateCycle`, the scrolling helpers, initialization
and ROM loading — and proves properties of the embedded semantics.

Modelling conventions:
* C machine integers become `Nat` with explicit wraparound: every store into a
  `uint8_t` cell that can overflow is followed by `% 256`, every store into a
  `uint16_t` cell that can overflow by `% 65536`.  `uint8_t` subtraction
  `a - b` becomes `(a + 256 - b) % 256` (equal to the C wraparound whenever
  `b < 256`, which the C types guarantee).
* C arrays become total functions `Nat → Nat` (an out-of-bounds C access is
  undefined behaviour; the total function gives it a harmless value).
* bit masks over contiguous ranges become `/` and `%`:
  `op & 0x0F00 >> 8 = op / 256 % 16`, `op & 0x00FF = op % 256`,
  `op & 0x0FFF = op % 4096`, `op & 0xF000` keyed switches become a match on
  `op / 4096`, and `(op & 0xF0FF) == 0x00kk` becomes
  `op / 4096 = 0 ∧ op % 256 = 0xkk` (the mask drops bits 8..11).
* The SDL window, renderer, audio and colour globals are rendering-only and
  are not part of the machine state; `rand()` and the key reported by the
  blocking `Fx0A` wait enter `emulateCycle` as explicit parameters, and the
  `exit(0)` of opcode `00FD` is modelled by an `Option` result
  (`none` = process termination).
* File I/O in `loadROM` is abstracted to an `Option (List Nat)` argument
  (`none` = the ROM file could not be opened/read).
-/

namespace Cupid8

/-- `#define MEMORY_SIZE 4096` -/
def MEMORY_SIZE : Nat := 4096
/-- `#define NORMAL_WIDTH 64` -/
def NORMAL_WIDTH : Nat := 64
/-- `#define NORMAL_HEIGHT 32` -/
def NORMAL_HEIGHT : Nat := 32
/-- `#define EXT_WIDTH 128` -/
def EXT_WIDTH : Nat := 128
/-- `#define EXT_HEIGHT 64` -/
def EXT_HEIGHT : Nat := 64
/-- `#define MAX_WIDTH EXT_WIDTH` -/
def MAX_WIDTH : Nat := 128
/-- `#define MAX_HEIGHT EXT_HEIGHT` -/
def MAX_HEIGHT : Nat := 64
/-- `#define START_ADDRESS 0x200` -/
def START_ADDRESS : Nat := 0x200

/-- The machine state: the C `Chip8` struct plus the mode globals
`screen_width`, `screen_height`, `extended_mode` that the dispatcher reads
and writes.  (The colour globals and the SDL handles are rendering-only and
omitted.) -/
@[ext] structure Chip8 where
  /-- `uint8_t memory[4096]` -/
  memory : Nat → Nat
  /-- `uint8_t V[16]` -/
  V : Nat → Nat
  /-- `uint16_t I` -/
  I : Nat
  /-- `uint16_t pc` -/
  pc : Nat
  /-- `uint16_t stack[16]` -/
  stack : Nat → Nat
  /-- `uint8_t sp` -/
  sp : Nat
  /-- `uint8_t delay_timer` -/
  delay_timer : Nat
  /-- `uint8_t sound_timer` -/
  sound_timer : Nat
  /-- `uint8_t display[MAX_WIDTH * MAX_HEIGHT]`, indexed `row * MAX_WIDTH + col` -/
  display : Nat → Nat
  /-- `uint8_t keys[16]` -/
  keys : Nat → Nat
  /-- global `int screen_width` -/
  screen_width : Nat
  /-- global `int screen_height` -/
  screen_height : Nat
  /-- global `int extended_mode` -/
  extended_mode : Bool

/-- `fetchOpcode`: `memory[pc] << 8 | memory[pc + 1]`.  The cells are
`uint8_t`, so shift-or is plain `* 256 +`. -/
def fetchOpcode (c : Chip8) : Nat :=
  c.memory c.pc * 256 + c.memory (c.pc + 1)

/-- `scroll_horizontal`: shift every row of the current logical region 4
cells right (`direction > 0`) or left, zero-filling the vacated cells.  The C
loops copy cell by cell but each write happens before its own source cell is
overwritten, so the result reads only pre-scroll values. -/
def scroll_horizontal (c : Chip8) (direction : Int) : Chip8 :=
  let shift := 4
  if direction > 0 then
    { c with display :=
        (List.range c.screen_height).foldl (fun d yy =>
          let d := (List.range (c.screen_width - shift)).foldl (fun d i =>
            let xx := c.screen_width - 1 - i
            Function.update d (yy * MAX_WIDTH + xx) (d (yy * MAX_WIDTH + (xx - shift)))) d
          (List.range shift).foldl (fun d xx =>
            Function.update d (yy * MAX_WIDTH + xx) 0) d) c.display }
  else
    { c with display :=
        (List.range c.screen_height).foldl (fun d yy =>
          let d := (List.range (c.screen_width - shift)).foldl (fun d xx =>
            Function.update d (yy * MAX_WIDTH + xx) (d (yy * MAX_WIDTH + (xx + shift)))) d
          (List.range shift).foldl (fun d i =>
            Function.update d (yy * MAX_WIDTH + (c.screen_width - shift + i)) 0) d) c.display }

/-- `scroll_down`: shift every row of the current logical region down by `n`
rows, zero-filling the vacated top rows. -/
def scroll_down (c : Chip8) (n : Nat) : Chip8 :=
  let d1 := (List.range (c.screen_height - n)).foldl (fun d i =>
    let yy := c.screen_height - 1 - i
    (List.range c.screen_width).foldl (fun d xx =>
      Function.update d (yy * MAX_WIDTH + xx) (d ((yy - n) * MAX_WIDTH + xx))) d) c.display
  let d2 := (List.range n).foldl (fun d yy =>
    (List.range c.screen_width).foldl (fun d xx =>
      Function.update d (yy * MAX_WIDTH + xx) 0) d) d1
  { c with display := d2 }

/-- Opcode `00FE`: disable extended mode — reset the logical dimensions to
64×32 and clear the whole backing display (the colour/window updates are
rendering-only). -/
def disableExtended (c : Chip8) : Chip8 :=
  { c with extended_mode := false, screen_width := NORMAL_WIDTH,
           screen_height := NORMAL_HEIGHT, display := fun _ => 0 }

/-- Opcode `00FF`: enable extended mode — logical dimensions 128×64, clear
the whole backing display. -/
def enableExtended (c : Chip8) : Chip8 :=
  { c with extended_mode := true, screen_width := EXT_WIDTH,
           screen_height := EXT_HEIGHT, display := fun _ => 0 }

/-- One sprite pixel of the `Dxyn` draw (the body of the innermost C loop):
if the sprite bit is set, compute the wrapped target coordinates from the
*current* values of `V[x]`/`V[y]`, record a collision into `V[0xF]` when the
target cell is 1, then XOR the target cell. -/
def drawPixel (c : Chip8) (x y row col : Nat) (bit : Bool) : Chip8 :=
  if bit then
    let posX := (c.V x + col) % c.screen_width
    let posY := (c.V y + row) % c.screen_height
    let idx := posY * MAX_WIDTH + posX
    let c1 := if c.display idx = 1 then { c with V := Function.update c.V 15 1 } else c
    { c1 with display := Function.update c1.display idx (c1.display idx ^^^ 1) }
  else c

/-- One row of the standard 8-wide sprite draw: `spriteByte & (0x80 >> col)`
tests bit `7 - col`. -/
def drawRow8 (c : Chip8) (x y row : Nat) : Chip8 :=
  let spriteByte := c.memory (c.I + row)
  (List.range 8).foldl (fun acc col =>
    drawPixel acc x y row col (Nat.testBit spriteByte (7 - col))) c

/-- One row of the SCHIP 16×16 sprite draw: two bytes per row. -/
def drawRow16 (c : Chip8) (x y row : Nat) : Chip8 :=
  let byte1 := c.memory (c.I + row * 2)
  let byte2 := c.memory (c.I + row * 2 + 1)
  (List.range 16).foldl (fun acc col =>
    drawPixel acc x y row col
      (if col < 8 then Nat.testBit byte1 (7 - col)
       else Nat.testBit byte2 (7 - (col - 8)))) c

/-- The `case 0xD000` body of `emulateCycle`: reset `V[0xF]`, then draw a
16×16 sprite when in extended mode with `n == 0`, else an 8×`n` sprite. -/
def execDxyn (c : Chip8) (x y n : Nat) : Chip8 :=
  let c := { c with V := Function.update c.V 15 0 }
  if c.extended_mode = true ∧ n = 0 then
    (List.range 16).foldl (fun acc row => drawRow16 acc x y row) c
  else
    (List.range n).foldl (fun acc row => drawRow8 acc x y row) c

/-- The SCHIP extended-opcode chain at the top of `emulateCycle` (the state
`c` here already has `pc` advanced).  `some r` means one of the extended
patterns matched and the cycle returns `r` immediately (skipping the timer
decrement); the inner `none` is the `exit(0)` of `00FD`.  A `none` result
means no extended pattern matched and dispatch falls through to the standard
switch.  The C masks with `0xF0FF`, i.e. it tests only the top nibble and the
low byte (`op / 4096` and `op % 256`); the scroll-down row tests the top
nibble and the third nibble. -/
def execExtended (c : Chip8) (opcode : Nat) : Option (Option Chip8) :=
  if opcode / 4096 = 0 ∧ opcode % 256 = 0xFB then
    some (some (scroll_horizontal c 1))
  else if opcode / 4096 = 0 ∧ opcode % 256 = 0xFC then
    some (some (scroll_horizontal c (-1)))
  else if opcode / 4096 = 0 ∧ opcode % 256 = 0xFD then
    some none
  else if opcode / 4096 = 0 ∧ opcode % 256 = 0xFE then
    some (some (disableExtended c))
  else if opcode / 4096 = 0 ∧ opcode % 256 = 0xFF then
    some (some (enableExtended c))
  else if opcode / 4096 = 0 ∧ opcode / 16 % 16 = 0xC then
    some (some (scroll_down c (opcode % 16)))
  else
    none

/-- The standard `switch (opcode & 0xF000)` of `emulateCycle`, acting on the
state with `pc` already advanced.  `rnd` models the `rand()` call of `Cxkk`;
`key` models the key code eventually latched by the blocking `Fx0A` wait
(the C assigns one of the sixteen codes `0x0..0xF`). -/
def execStandard (c : Chip8) (opcode rnd key : Nat) : Chip8 :=
  let x := opcode / 256 % 16
  let y := opcode / 16 % 16
  let kk := opcode % 256
  let nnn := opcode % 4096
  let n := opcode % 16
  match opcode / 4096 with
  | 0 =>
    if opcode = 0x00E0 then { c with display := fun _ => 0 }
    else if opcode = 0x00EE then
      let sp1 := (c.sp + 255) % 256
      { c with sp := sp1, pc := c.stack sp1 }
    else c
  | 1 => { c with pc := nnn }
  | 2 => { c with stack := Function.update c.stack c.sp c.pc,
                  sp := (c.sp + 1) % 256, pc := nnn }
  | 3 => if c.V x = kk then { c with pc := (c.pc + 2) % 65536 } else c
  | 4 => if c.V x ≠ kk then { c with pc := (c.pc + 2) % 65536 } else c
  | 5 => if c.V x = c.V y then { c with pc := (c.pc + 2) % 65536 } else c
  | 6 => { c with V := Function.update c.V x kk }
  | 7 => { c with V := Function.update c.V x ((c.V x + kk) % 256) }
  | 8 =>
    match opcode % 16 with
    | 0 => { c with V := Function.update c.V x (c.V y) }
    | 1 => { c with V := Function.update c.V x (c.V x ||| c.V y) }
    | 2 => { c with V := Function.update c.V x (c.V x &&& c.V y) }
    | 3 => { c with V := Function.update c.V x (c.V x ^^^ c.V y) }
    | 4 =>
      let sum := c.V x + c.V y
      let V1 := Function.update c.V 15 (if sum > 255 then 1 else 0)
      { c with V := Function.update V1 x (sum % 256) }
    | 5 =>
      let V1 := Function.update c.V 15 (if c.V x > c.V y then 1 else 0)
      { c with V := Function.update V1 x ((V1 x + 256 - V1 y) % 256) }
    | 6 =>
      let V1 := Function.update c.V 15 (c.V x % 2)
      { c with V := Function.update V1 x (V1 x / 2) }
    | 7 =>
      let V1 := Function.update c.V 15 (if c.V y > c.V x then 1 else 0)
      { c with V := Function.update V1 x ((V1 y + 256 - V1 x) % 256) }
    | 0xE =>
      let V1 := Function.update c.V 15 (c.V x / 128 % 2)
      { c with V := Function.update V1 x (V1 x * 2 % 256) }
    | _ => c
  | 9 => if c.V x ≠ c.V y then { c with pc := (c.pc + 2) % 65536 } else c
  | 0xA => { c with I := nnn }
  | 0xB => { c with pc := (nnn + c.V 0) % 65536 }
  | 0xC => { c with V := Function.update c.V x ((rnd % 256) &&& kk) }
  | 0xD => execDxyn c x y n
  | 0xE =>
    if kk = 0x9E then
      (if c.keys (c.V x) ≠ 0 then { c with pc := (c.pc + 2) % 65536 } else c)
    else if kk = 0xA1 then
      (if c.keys (c.V x) = 0 then { c with pc := (c.pc + 2) % 65536 } else c)
    else c
  | 0xF =>
    match kk with
    | 0x07 => { c with V := Function.update c.V x c.delay_timer }
    | 0x0A => { c with V := Function.update c.V x (key % 16) }
    | 0x15 => { c with delay_timer := c.V x }
    | 0x18 => { c with sound_timer := c.V x }
    | 0x1E => { c with I := (c.I + c.V x) % 65536 }
    | 0x29 => { c with I := 0x50 + c.V x * 5 }
    | 0x33 =>
      let value := c.V x
      let m1 := Function.update c.memory c.I (value / 100)
      let m2 := Function.update m1 (c.I + 1) (value / 10 % 10)
      let m3 := Function.update m2 (c.I + 2) (value % 10)
      { c with memory := m3 }
    | 0x55 =>
      let m1 := (List.range (x + 1)).foldl (fun m i =>
        Function.update m (c.I + i) (c.V i)) c.memory
      { c with memory := m1 }
    | 0x65 =>
      let v1 := (List.range (x + 1)).foldl (fun v i =>
        Function.update v i (c.memory (c.I + i))) c.V
      { c with V := v1 }
    | _ => c
  | _ => c

/-- The timer decrement at the end of `emulateCycle` (lines 471–474):
each timer goes down by one when nonzero and stays at zero otherwise. -/
def tickTimers (c : Chip8) : Chip8 :=
  { c with
    delay_timer := if c.delay_timer > 0 then c.delay_timer - 1 else c.delay_timer,
    sound_timer := if c.sound_timer > 0 then c.sound_timer - 1 else c.sound_timer }

/-- `emulateCycle`: fetch, advance `pc` by 2, try the extended-opcode chain
(whose branches `return` without ticking the timers), otherwise run the
standard switch and then decrement the timers.  `none` models `exit(0)`. -/
def emulateCycle (c : Chip8) (rnd key : Nat) : Option Chip8 :=
  let opcode := fetchOpcode c
  let c := { c with pc := (c.pc + 2) % 65536 }
  match execExtended c opcode with
  | some r => r
  | none => some (tickTimers (execStandard c opcode rnd key))

/-- The 80-byte fontset copied to `memory + 0x50` by `initializeChip8`. -/
def chip8_fontset : List Nat :=
  [0xF0, 0x90, 0x90, 0x90, 0xF0,
   0x20, 0x60, 0x20, 0x20, 0x70,
   0xF0, 0x10, 0xF0, 0x80, 0xF0,
   0xF0, 0x10, 0xF0, 0x10, 0xF0,
   0x90, 0x90, 0xF0, 0x10, 0x10,
   0xF0, 0x80, 0xF0, 0x10, 0xF0,
   0xF0, 0x80, 0xF0, 0x90, 0xF0,
   0xF0, 0x10, 0x20, 0x40, 0x40,
   0xF0, 0x90, 0xF0, 0x90, 0xF0,
   0xF0, 0x90, 0xF0, 0x10, 0xF0,
   0xF0, 0x90, 0xF0, 0x90, 0x90,
   0xE0, 0x90, 0xE0, 0x90, 0xE0,
   0xF0, 0x80, 0x80, 0x80, 0xF0,
   0xE0, 0x90, 0x90, 0x90, 0xE0,
   0xF0, 0x80, 0xF0, 0x80, 0xF0,
   0xF0, 0x80, 0xF0, 0x80, 0x80]

/-- `initializeChip8`: zero everything, set `pc = 0x200`, copy the fontset to
`memory + 0x50`. -/
def initializeChip8 : Chip8 :=
  { memory := fun i =>
      if 0x50 ≤ i ∧ i < 0x50 + 80 then chip8_fontset.getD (i - 0x50) 0 else 0,
    V := fun _ => 0, I := 0, pc := START_ADDRESS, stack := fun _ => 0, sp := 0,
    delay_timer := 0, sound_timer := 0, display := fun _ => 0,
    keys := fun _ => 0, screen_width := NORMAL_WIDTH,
    screen_height := NORMAL_HEIGHT, extended_mode := false }

/-- `loadROM`, with file I/O abstracted: `rom = none` models a file that
could not be opened/read; otherwise `rom_size > MEMORY_SIZE - START_ADDRESS`
fails before anything is copied, and on success the bytes land at
`memory + 0x200`.  The `Bool` is the C return value (1 = success). -/
def loadROM (c : Chip8) (rom : Option (List Nat)) : Chip8 × Bool :=
  match rom with
  | none => (c, false)
  | some bytes =>
    if bytes.length > MEMORY_SIZE - START_ADDRESS then (c, false)
    else
      ({ c with memory := fun i =>
           if START_ADDRESS ≤ i ∧ i < START_ADDRESS + bytes.length then
             bytes.getD (i - START_ADDRESS) 0
           else c.memory i }, true)

/-- The start of `main` (lines 505–508): initialize, load the ROM, and on a
load failure `return 1` before the emulation loop runs a single cycle.
`Except.error e` is the process exit code, `Except.ok` the machine state the
emulation loop starts from. -/
def runMain (rom : Option (List Nat)) : Except Nat Chip8 :=
  let c := initializeChip8
  match loadROM c rom with
  | (c1, true) => Except.ok c1
  | (_, false) => Except.error 1

/-!
## Specification-side draw semantics

The spec describes `Dxyn` with the operand registers `Vx`, `Vy` read once:
"for each set bit in the sprite, compute target coordinates
`(Vx+col) mod logical_width`, `(Vy+row) mod logical_height`, XOR the target
display cell, and set `VF = 1` if any XOR caused a 1→0 transition".  The
definitions below state exactly that, to be compared with `execDxyn` (which,
as compiled, re-reads `V[x]`/`V[y]` at every pixel).
-/

/-- Spec: target cell of sprite pixel `(row, col)` for fixed operand values
`vx`, `vy`, wrapped into the logical region and indexed with the fixed
`MAX_WIDTH` stride. -/
def targetIdx (vx vy w h row col : Nat) : Nat :=
  ((vy + row) % h) * MAX_WIDTH + ((vx + col) % w)

/-- Spec: bit `col` of row `row` of an 8-wide sprite at memory address `i`. -/
def spriteBit8 (mem : Nat → Nat) (i row col : Nat) : Bool :=
  Nat.testBit (mem (i + row)) (7 - col)

/-- Spec: bit `col` of row `row` of a 16-wide sprite (two bytes per row) at
memory address `i`. -/
def spriteBit16 (mem : Nat → Nat) (i row col : Nat) : Bool :=
  if col < 8 then Nat.testBit (mem (i + row * 2)) (7 - col)
  else Nat.testBit (mem (i + row * 2 + 1)) (7 - (col - 8))

/-- The targets of a list of sprite columns in one row, for operand values
read from `c` once. -/
def pixelTargets (c : Chip8) (x y row : Nat) (cols : List Nat) : List Nat :=
  cols.map (fun col =>
    targetIdx (c.V x) (c.V y) c.screen_width c.screen_height row col)

/-- The targets of the set bits of the given 8-wide sprite rows, in draw
order. -/
def rowTargets8 (c : Chip8) (x y : Nat) (rows : List Nat) : List Nat :=
  (rows.map (fun row =>
    pixelTargets c x y row
      ((List.range 8).filter (fun col => spriteBit8 c.memory c.I row col)))).flatten

/-- The targets of the set bits of the given 16-wide sprite rows, in draw
order. -/
def rowTargets16 (c : Chip8) (x y : Nat) (rows : List Nat) : List Nat :=
  (rows.map (fun row =>
    pixelTargets c x y row
      ((List.range 16).filter (fun col => spriteBit16 c.memory c.I row col)))).flatten

/-- Spec: the display indices XORed by `Dxyn`, in draw order — all set bits
of the sprite (16×16 when extended mode and `n = 0`, else 8×`n`), mapped to
their wrapped target cells. -/
def targetList (c : Chip8) (x y n : Nat) : List Nat :=
  if c.extended_mode = true ∧ n = 0 then
    rowTargets16 c x y (List.range 16)
  else
    rowTargets8 c x y (List.range n)

/-- Spec: XOR each listed cell in order, starting from display `d` and
collision flag `vf`; the flag becomes 1 as soon as a cell holding 1 is
toggled (a 1→0 transition) and is never cleared. -/
def drawList (d : Nat → Nat) (vf : Nat) (L : List Nat) : (Nat → Nat) × Nat :=
  L.foldl (fun p idx =>
    (Function.update p.1 idx (p.1 idx ^^^ 1),
     if p.1 idx = 1 then 1 else p.2)) (d, vf)

/-- Spec: the whole `Dxyn` effect per the spec's words — `VF` is reset to 0
at the start, every set sprite bit XORs its target cell, and `VF` ends 1 iff
some XOR turned a 1 cell to 0 during the draw. -/
def specDxyn (c : Chip8) (x y n : Nat) : Chip8 :=
  let p := drawList c.display 0 (targetList c x y n)
  { c with display := p.1, V := Function.update c.V 15 p.2 }

/-- Pure toggling of a list of cells (the display component of `drawList`). -/
def applyToggles (d : Nat → Nat) (L : List Nat) : Nat → Nat :=
  L.foldl (fun d i => Function.update d i (d i ^^^ 1)) d

/-! ## Concrete machine states used to instantiate the theorems -/

/-- The all-zero standard-mode machine state with `pc = 0x200`. -/
def zeroState : Chip8 :=
  { memory := fun _ => 0, V := fun _ => 0, I := 0, pc := START_ADDRESS,
    stack := fun _ => 0, sp := 0, delay_timer := 0, sound_timer := 0,
    display := fun _ => 0, keys := fun _ => 0, screen_width := NORMAL_WIDTH,
    screen_height := NORMAL_HEIGHT, extended_mode := false }

/-- A state on which the draw with operand register `x = 0xF` misbehaves: a
two-pixel sprite row `0xC0` at `I = 0x300`, and display cell 0 already set. -/
def cexDraw : Chip8 :=
  { zeroState with
    memory := fun i => if i = 0x300 then 0xC0 else 0,
    I := 0x300,
    display := fun i => if i = 0 then 1 else 0 }

/-- A state whose next instruction is `D121` (draw the one-row sprite `0x80`
at `(V1, V2)`), with the sprite at `I = 0x300`. -/
def drawState : Chip8 :=
  { zeroState with
    memory := fun i =>
      if i = 0x200 then 0xD1 else if i = 0x201 then 0x21
      else if i = 0x300 then 0x80 else 0,
    I := 0x300 }

/-- A state whose next instruction is `8125` (`V1 -= V2`) with
`V1 = V2 = 5` — the no-borrow boundary case. -/
def subEqState : Chip8 :=
  { zeroState with
    memory := fun i => if i = 0x200 then 0x81 else if i = 0x201 then 0x25 else 0,
    V := fun i => if i = 1 then 5 else if i = 2 then 5 else 0 }

/-- A state whose next instruction is `8125` (`V1 -= V2`) with `V1 = 7`,
`V2 = 3`. -/
def subState : Chip8 :=
  { zeroState with
    memory := fun i => if i = 0x200 then 0x81 else if i = 0x201 then 0x25 else 0,
    V := fun i => if i = 1 then 7 else if i = 2 then 3 else 0 }

/-- A state whose next instruction is `8127` (`V1 = V2 - V1`) with `V1 = 7`,
`V2 = 3`. -/
def subnState : Chip8 :=
  { zeroState with
    memory := fun i => if i = 0x200 then 0x81 else if i = 0x201 then 0x27 else 0,
    V := fun i => if i = 1 then 7 else if i = 2 then 3 else 0 }

/-- A state whose next instruction is `F11E` (`I += V1`) with
`I = 0xFFFF` and `V1 = 2`, exercising the 16-bit overflow of `I`. -/
def addrOverflowState : Chip8 :=
  { zeroState with
    memory := fun i => if i = 0x200 then 0xF1 else if i = 0x201 then 0x1E else 0,
    I := 0xFFFF,
    V := fun i => if i = 1 then 2 else 0 }

/-- A state whose next instruction is `F11E` (`I += V1`) with `I = 10`,
`V1 = 3`. -/
def addrState : Chip8 :=
  { zeroState with
    memory := fun i => if i = 0x200 then 0xF1 else if i = 0x201 then 0x1E else 0,
    I := 10,
    V := fun i => if i = 1 then 3 else 0 }

/-- A state whose next instruction word is `0x01FB` — top nibble 0, low byte
`FB`, but x-nibble 1, so *not* the full pattern `0x00FB` — with a nonzero
delay timer and a display pixel at row 0, column 5. -/
def maskedScrollState : Chip8 :=
  { zeroState with
    memory := fun i => if i = 0x200 then 0x01 else if i = 0x201 then 0xFB else 0,
    delay_timer := 5,
    display := fun i => if i = 5 then 1 else 0 }

/-- A state whose next instruction is `6105` (`V1 = 5`) with both timers
nonzero. -/
def ldState : Chip8 :=
  { zeroState with
    memory := fun i => if i = 0x200 then 0x61 else if i = 0x201 then 0x05 else 0,
    delay_timer := 3, sound_timer := 2 }

/-- A state holding the call/return pair of the spec's scenario: `2208`
(call `0x208`) at `0x200` and `00EE` (return) at `0x208`. -/
def callState : Chip8 :=
  { zeroState with
    memory := fun i =>
      if i = 0x200 then 0x22 else if i = 0x201 then 0x08
      else if i = 0x208 then 0x00 else if i = 0x209 then 0xEE else 0 }

/-- A state whose next instruction word is `0x5123` — a register-equality
skip with a *nonzero* low nibble — with `V1 = V2 = 9`. -/
def skipEqState : Chip8 :=
  { zeroState with
    memory := fun i => if i = 0x200 then 0x51 else if i = 0x201 then 0x23 else 0,
    V := fun i => if i = 1 then 9 else if i = 2 then 9 else 0 }

/-- A state whose next instruction word is `0x9127` — a register-inequality
skip with a *nonzero* low nibble — with `V1 = 9`, `V2 = 4`. -/
def skipNeState : Chip8 :=
  { zeroState with
    memory := fun i => if i = 0x200 then 0x91 else if i = 0x201 then 0x27 else 0,
    V := fun i => if i = 1 then 9 else if i = 2 then 4 else 0 }

/-- A state whose next instruction is `8126` (shift right) with `V1 = 5` and
`V2 = 77` (to witness that `V2` is ignored). -/
def shrState : Chip8 :=
  { zeroState with
    memory := fun i => if i = 0x200 then 0x81 else if i = 0x201 then 0x26 else 0,
    V := fun i => if i = 1 then 5 else if i = 2 then 77 else 0 }

/-- A state whose next instruction is `812E` (shift left) with `V1 = 0xC1`
and `V2 = 33`. -/
def shlState : Chip8 :=
  { zeroState with
    memory := fun i => if i = 0x200 then 0x81 else if i = 0x201 then 0x2E else 0,
    V := fun i => if i = 1 then 0xC1 else if i = 2 then 33 else 0 }

/-- Two emulation cycles in sequence (stopping if the first one exits). -/
def run2 (c : Chip8) (rnd key : Nat) : Option Chip8 :=
  (emulateCycle c rnd key).bind (fun c1 => emulateCycle c1 rnd key)

/-! ## Helper lemmas: the draw loop -/

theorem drawPixel_memory (c : Chip8) (x y row col : Nat) (b : Bool) :
    (drawPixel c x y row col b).memory = c.memory := by
  unfold drawPixel; split
  · dsimp only
    split <;> rfl
  · rfl

theorem drawPixel_I (c : Chip8) (x y row col : Nat) (b : Bool) :
    (drawPixel c x y row col b).I = c.I := by
  unfold drawPixel; split
  · dsimp only
    split <;> rfl
  · rfl

theorem drawPixel_screen_width (c : Chip8) (x y row col : Nat) (b : Bool) :
    (drawPixel c x y row col b).screen_width = c.screen_width := by
  unfold drawPixel; split
  · dsimp only
    split <;> rfl
  · rfl

theorem drawPixel_screen_height (c : Chip8) (x y row col : Nat) (b : Bool) :
    (drawPixel c x y row col b).screen_height = c.screen_height := by
  unfold drawPixel; split
  · dsimp only
    split <;> rfl
  · rfl

theorem drawPixel_V_ne (c : Chip8) (x y row col : Nat) (b : Bool)
    (i : Nat) (hi : i ≠ 15) :
    (drawPixel c x y row col b).V i = c.V i := by
  unfold drawPixel; split
  · dsimp only
    split
    · simp [Function.update_noteq hi]
    · rfl
  · rfl

theorem drawPixel_elim_true (c : Chip8) (x y row col : Nat) :
    drawPixel c x y row col true =
    { c with
      V := if c.display ((c.V y + row) % c.screen_height * MAX_WIDTH +
             (c.V x + col) % c.screen_width) = 1
           then Function.update c.V 15 1 else c.V,
      display := Function.update c.display
        ((c.V y + row) % c.screen_height * MAX_WIDTH +
          (c.V x + col) % c.screen_width)
        (c.display ((c.V y + row) % c.screen_height * MAX_WIDTH +
          (c.V x + col) % c.screen_width) ^^^ 1) } := by
  unfold drawPixel
  rw [if_pos rfl]
  dsimp only
  split <;> simp_all

theorem drawPixel_elim_false (c : Chip8) (x y row col : Nat) :
    drawPixel c x y row col false = c := rfl

/-- The inner column loop of the draw specializes to the spec's `drawList`
over the row's targets — provided the operand registers are not the flag
register `V[0xF]`, so that the per-pixel re-reads of `V[x]`, `V[y]` see the
original values. -/
theorem foldl_drawPixel_cols (x y row : Nat) (hx : x ≠ 15) (hy : y ≠ 15)
    (bit : Nat → Bool) (cols : List Nat) :
    ∀ c : Chip8,
      cols.foldl (fun acc col => drawPixel acc x y row col (bit col)) c =
      { c with
        display := (drawList c.display (c.V 15)
          (pixelTargets c x y row (cols.filter bit))).1,
        V := Function.update c.V 15
          (drawList c.display (c.V 15)
            (pixelTargets c x y row (cols.filter bit))).2 } := by
  induction cols with
  | nil =>
    intro c
    simp [drawList, pixelTargets, Function.update_eq_self]
  | cons col cols ih =>
    intro c
    rw [List.foldl_cons]
    by_cases hb : bit col
    · rw [List.filter_cons_of_pos hb, hb, drawPixel_elim_true]
      by_cases hcol :
          c.display ((c.V y + row) % c.screen_height * MAX_WIDTH +
            (c.V x + col) % c.screen_width) = 1
      · rw [if_pos hcol, ih]
        ext <;>
          simp [pixelTargets, targetIdx, drawList, hcol,
            Function.update_noteq hx, Function.update_noteq hy,
            Function.update_idem, Function.update_same]
      · rw [if_neg hcol, ih]
        ext <;>
          simp [pixelTargets, targetIdx, drawList, hcol,
            Function.update_noteq hx, Function.update_noteq hy,
            Function.update_idem, Function.update_same]
    · have hb' : bit col = false := by simpa using hb
      rw [List.filter_cons_of_neg hb, hb', drawPixel_elim_false]
      exact ih c

theorem drawList_append (d : Nat → Nat) (f : Nat) (L1 L2 : List Nat) :
    drawList d f (L1 ++ L2) =
      drawList (drawList d f L1).1 (drawList d f L1).2 L2 := by
  simp [drawList, List.foldl_append]

theorem rowTargets8_update (x y : Nat) (hx : x ≠ 15) (hy : y ≠ 15)
    (c : Chip8) (D : Nat → Nat) (F : Nat) (rows : List Nat) :
    rowTargets8 { c with display := D, V := Function.update c.V 15 F } x y rows =
      rowTargets8 c x y rows := by
  simp [rowTargets8, pixelTargets, targetIdx,
    Function.update_noteq hx, Function.update_noteq hy]

theorem rowTargets16_update (x y : Nat) (hx : x ≠ 15) (hy : y ≠ 15)
    (c : Chip8) (D : Nat → Nat) (F : Nat) (rows : List Nat) :
    rowTargets16 { c with display := D, V := Function.update c.V 15 F } x y rows =
      rowTargets16 c x y rows := by
  simp [rowTargets16, pixelTargets, targetIdx,
    Function.update_noteq hx, Function.update_noteq hy]

/-- The row loop of the standard 8×`n` draw is the spec's `drawList` over the
sprite's targets, provided neither operand register is `V[0xF]`. -/
theorem foldl_drawRow8 (x y : Nat) (hx : x ≠ 15) (hy : y ≠ 15)
    (rows : List Nat) :
    ∀ c : Chip8,
      rows.foldl (fun acc row => drawRow8 acc x y row) c =
      { c with
        display := (drawList c.display (c.V 15) (rowTargets8 c x y rows)).1,
        V := Function.update c.V 15
          (drawList c.display (c.V 15) (rowTargets8 c x y rows)).2 } := by
  induction rows with
  | nil =>
    intro c
    simp [rowTargets8, drawList, Function.update_eq_self]
  | cons r rows ih =>
    intro c
    have hrow : drawRow8 c x y r =
        { c with
          display := (drawList c.display (c.V 15)
            (pixelTargets c x y r ((List.range 8).filter
              (fun col => Nat.testBit (c.memory (c.I + r)) (7 - col))))).1,
          V := Function.update c.V 15
            (drawList c.display (c.V 15)
              (pixelTargets c x y r ((List.range 8).filter
                (fun col => Nat.testBit (c.memory (c.I + r)) (7 - col))))).2 } :=
      foldl_drawPixel_cols x y r hx hy
        (fun col => Nat.testBit (c.memory (c.I + r)) (7 - col)) (List.range 8) c
    rw [List.foldl_cons, hrow, ih, rowTargets8_update x y hx hy]
    have hcons : rowTargets8 c x y (r :: rows) =
        pixelTargets c x y r ((List.range 8).filter
          (fun col => Nat.testBit (c.memory (c.I + r)) (7 - col))) ++
        rowTargets8 c x y rows := by
      simp [rowTargets8, spriteBit8]
    rw [hcons, drawList_append]
    ext <;> simp [Function.update_idem, Function.update_same]

/-- The row loop of the SCHIP 16×16 draw is the spec's `drawList` over the
sprite's targets, provided neither operand register is `V[0xF]`. -/
theorem foldl_drawRow16 (x y : Nat) (hx : x ≠ 15) (hy : y ≠ 15)
    (rows : List Nat) :
    ∀ c : Chip8,
      rows.foldl (fun acc row => drawRow16 acc x y row) c =
      { c with
        display := (drawList c.display (c.V 15) (rowTargets16 c x y rows)).1,
        V := Function.update c.V 15
          (drawList c.display (c.V 15) (rowTargets16 c x y rows)).2 } := by
  induction rows with
  | nil =>
    intro c
    simp [rowTargets16, drawList, Function.update_eq_self]
  | cons r rows ih =>
    intro c
    have hrow : drawRow16 c x y r =
        { c with
          display := (drawList c.display (c.V 15)
            (pixelTargets c x y r ((List.range 16).filter
              (fun col =>
                if col < 8 then Nat.testBit (c.memory (c.I + r * 2)) (7 - col)
                else Nat.testBit (c.memory (c.I + r * 2 + 1)) (7 - (col - 8)))))).1,
          V := Function.update c.V 15
            (drawList c.display (c.V 15)
              (pixelTargets c x y r ((List.range 16).filter
                (fun col =>
                  if col < 8 then Nat.testBit (c.memory (c.I + r * 2)) (7 - col)
                  else Nat.testBit (c.memory (c.I + r * 2 + 1)) (7 - (col - 8)))))).2 } :=
      foldl_drawPixel_cols x y r hx hy
        (fun col =>
          if col < 8 then Nat.testBit (c.memory (c.I + r * 2)) (7 - col)
          else Nat.testBit (c.memory (c.I + r * 2 + 1)) (7 - (col - 8)))
        (List.range 16) c
    rw [List.foldl_cons, hrow, ih, rowTargets16_update x y hx hy]
    have hcons : rowTargets16 c x y (r :: rows) =
        pixelTargets c x y r ((List.range 16).filter
          (fun col =>
            if col < 8 then Nat.testBit (c.memory (c.I + r * 2)) (7 - col)
            else Nat.testBit (c.memory (c.I + r * 2 + 1)) (7 - (col - 8)))) ++
        rowTargets16 c x y rows := by
      simp [rowTargets16, spriteBit16]
    rw [hcons, drawList_append]
    ext <;> simp [Function.update_idem, Function.update_same]

/-- `execDxyn` — the code's draw, which re-reads `V[x]`/`V[y]` every pixel —
agrees with the spec's draw whenever neither operand register is the flag
register `V[0xF]`. -/
theorem execDxyn_eq_specDxyn (c : Chip8) (x y n : Nat)
    (hx : x ≠ 15) (hy : y ≠ 15) :
    execDxyn c x y n = specDxyn c x y n := by
  unfold execDxyn specDxyn
  dsimp only
  by_cases hext : c.extended_mode = true ∧ n = 0
  · rw [if_pos hext]
    rw [foldl_drawRow16 x y hx hy]
    rw [rowTargets16_update x y hx hy c]
    unfold targetList
    rw [if_pos hext]
    ext <;> simp [Function.update_idem, Function.update_same]
  · rw [if_neg hext]
    rw [foldl_drawRow8 x y hx hy]
    rw [rowTargets8_update x y hx hy c]
    unfold targetList
    rw [if_neg hext]
    ext <;> simp [Function.update_idem, Function.update_same]

/-! ## Helper lemmas: XOR toggling -/

theorem drawList_fst (L : List Nat) :
    ∀ (d : Nat → Nat) (f : Nat), (drawList d f L).1 = applyToggles d L := by
  induction L with
  | nil => intro d f; rfl
  | cons a L ih =>
    intro d f
    rw [show drawList d f (a :: L) =
      drawList (Function.update d a (d a ^^^ 1)) (if d a = 1 then 1 else f) L from rfl]
    rw [show applyToggles d (a :: L) =
      applyToggles (Function.update d a (d a ^^^ 1)) L from rfl]
    exact ih _ _

theorem applyToggles_apply (L : List Nat) :
    ∀ (d : Nat → Nat) (i : Nat),
      applyToggles d L i = d i ^^^ L.count i % 2 := by
  induction L with
  | nil => intro d i; simp [applyToggles, List.count_nil, Nat.xor_zero]
  | cons a L ih =>
    intro d i
    rw [show applyToggles d (a :: L) =
      applyToggles (Function.update d a (d a ^^^ 1)) L from rfl]
    rw [ih]
    by_cases hia : i = a
    · subst hia
      rw [Function.update_same, Nat.xor_assoc]
      have hcount : (i :: L).count i = L.count i + 1 := by
        simp [List.count_cons]
      rw [hcount]
      rcases Nat.mod_two_eq_zero_or_one (L.count i) with h | h
      · have h1 : (L.count i + 1) % 2 = 1 := by omega
        rw [h, h1, Nat.xor_zero]
      · have h1 : (L.count i + 1) % 2 = 0 := by omega
        rw [h, h1, Nat.xor_self, Nat.xor_zero]
    · rw [Function.update_noteq hia]
      have hcount : (a :: L).count i = L.count i := by
        simp [List.count_cons, hia]
      rw [hcount]

theorem applyToggles_twice (d : Nat → Nat) (L : List Nat) (i : Nat) :
    applyToggles (applyToggles d L) L i = d i := by
  rw [applyToggles_apply, applyToggles_apply]
  rcases Nat.mod_two_eq_zero_or_one (L.count i) with h | h <;>
    rw [h] <;>
    simp [Nat.xor_assoc, Nat.xor_self, Nat.xor_zero]

theorem specDxyn_display (c : Chip8) (x y n : Nat) :
    (specDxyn c x y n).display = applyToggles c.display (targetList c x y n) :=
  drawList_fst (targetList c x y n) c.display 0

theorem targetList_specDxyn (c : Chip8) (x y n : Nat)
    (hx : x ≠ 15) (hy : y ≠ 15) :
    targetList (specDxyn c x y n) x y n = targetList c x y n := by
  unfold targetList
  rw [show (specDxyn c x y n).extended_mode = c.extended_mode from rfl]
  by_cases hext : c.extended_mode = true ∧ n = 0
  · rw [if_pos hext, if_pos hext]
    exact rowTargets16_update x y hx hy c _ _ _
  · rw [if_neg hext, if_neg hext]
    exact rowTargets8_update x y hx hy c _ _ _

/-! ## Helper lemmas: dispatch -/

/-- When no extended-opcode pattern matches the fetched word, the cycle runs
the standard switch on the pc-advanced state and then ticks the timers. -/
theorem emulateCycle_fallthrough (c : Chip8) (rnd key : Nat)
    (h1 : ¬ (fetchOpcode c / 4096 = 0 ∧ fetchOpcode c % 256 = 0xFB))
    (h2 : ¬ (fetchOpcode c / 4096 = 0 ∧ fetchOpcode c % 256 = 0xFC))
    (h3 : ¬ (fetchOpcode c / 4096 = 0 ∧ fetchOpcode c % 256 = 0xFD))
    (h4 : ¬ (fetchOpcode c / 4096 = 0 ∧ fetchOpcode c % 256 = 0xFE))
    (h5 : ¬ (fetchOpcode c / 4096 = 0 ∧ fetchOpcode c % 256 = 0xFF))
    (h6 : ¬ (fetchOpcode c / 4096 = 0 ∧ fetchOpcode c / 16 % 16 = 0xC)) :
    emulateCycle c rnd key =
      some (tickTimers (execStandard { c with pc := (c.pc + 2) % 65536 }
        (fetchOpcode c) rnd key)) := by
  unfold emulateCycle execExtended
  simp only [h1, h2, h3, h4, h5, h6, if_false]

/-- A fetched word whose top nibble is nonzero never matches the extended
chain. -/
theorem emulateCycle_standard (c : Chip8) (rnd key : Nat)
    (h : fetchOpcode c / 4096 ≠ 0) :
    emulateCycle c rnd key =
      some (tickTimers (execStandard { c with pc := (c.pc + 2) % 65536 }
        (fetchOpcode c) rnd key)) := by
  apply emulateCycle_fallthrough <;> simp [h]

/-- Effect of `Fx1E`: `I += Vx` at `uint16_t` width. -/
theorem fx1e_effect (c : Chip8) (rnd key x : Nat) (hx16 : x < 16)
    (hop : fetchOpcode c = 0xF01E + x * 256) :
    emulateCycle c rnd key =
      some (tickTimers { c with pc := (c.pc + 2) % 65536,
                                I := (c.I + c.V x) % 65536 }) := by
  rw [emulateCycle_standard c rnd key (by rw [hop]; omega), hop]
  have hhi : (0xF01E + x * 256) / 4096 = 15 := by omega
  have hkk : (0xF01E + x * 256) % 256 = 0x1E := by omega
  have hx' : (0xF01E + x * 256) / 256 % 16 = x := by omega
  simp only [execStandard, hhi, hkk, hx']

/-- Effect of any word with top nibble 5: skip when `V[x] = V[y]`,
whatever the low nibble is. -/
theorem skip5_effect (c : Chip8) (rnd key : Nat)
    (hop : fetchOpcode c / 4096 = 5) :
    emulateCycle c rnd key = some (tickTimers
      (if c.V (fetchOpcode c / 256 % 16) = c.V (fetchOpcode c / 16 % 16)
       then { c with pc := ((c.pc + 2) % 65536 + 2) % 65536 }
       else { c with pc := (c.pc + 2) % 65536 })) := by
  by_cases h : c.V (fetchOpcode c / 256 % 16) = c.V (fetchOpcode c / 16 % 16) <;>
    rw [emulateCycle_standard c rnd key (by rw [hop]; omega)] <;>
    simp [execStandard, hop, h]

/-- Effect of any word with top nibble 9: skip when `V[x] ≠ V[y]`,
whatever the low nibble is. -/
theorem skip9_effect (c : Chip8) (rnd key : Nat)
    (hop : fetchOpcode c / 4096 = 9) :
    emulateCycle c rnd key = some (tickTimers
      (if c.V (fetchOpcode c / 256 % 16) = c.V (fetchOpcode c / 16 % 16)
       then { c with pc := (c.pc + 2) % 65536 }
       else { c with pc := ((c.pc + 2) % 65536 + 2) % 65536 })) := by
  by_cases h : c.V (fetchOpcode c / 256 % 16) = c.V (fetchOpcode c / 16 % 16) <;>
    rw [emulateCycle_standard c rnd key (by rw [hop]; omega)] <;>
    simp [execStandard, hop, h]

/-- Effect of `8xy6`: `VF` gets bit 0 of `V[x]` first, then `V[x]` is
halved in place; `y` does not appear in the result. -/
theorem shr_effect (c : Chip8) (rnd key x y : Nat)
    (hx16 : x < 16) (hy16 : y < 16)
    (hop : fetchOpcode c = 0x8006 + x * 256 + y * 16) :
    emulateCycle c rnd key =
      some (tickTimers { c with
                         pc := (c.pc + 2) % 65536,
                         V := Function.update
                           (Function.update c.V 15 (c.V x % 2)) x
                           (Function.update c.V 15 (c.V x % 2) x / 2) }) := by
  rw [emulateCycle_standard c rnd key (by rw [hop]; omega), hop]
  have hhi : (0x8006 + x * 256 + y * 16) / 4096 = 8 := by omega
  have hn : (0x8006 + x * 256 + y * 16) % 16 = 6 := by omega
  have hx' : (0x8006 + x * 256 + y * 16) / 256 % 16 = x := by omega
  simp only [execStandard, hhi, hn, hx']
  try rw [hx']
  try rfl

/-- Effect of `8xyE`: `VF` gets bit 7 of `V[x]` first, then `V[x]` is
doubled mod 256 in place; `y` does not appear in the result. -/
theorem shl_effect (c : Chip8) (rnd key x y : Nat)
    (hx16 : x < 16) (hy16 : y < 16)
    (hop : fetchOpcode c = 0x800E + x * 256 + y * 16) :
    emulateCycle c rnd key =
      some (tickTimers { c with
                         pc := (c.pc + 2) % 65536,
                         V := Function.update
                           (Function.update c.V 15 (c.V x / 128 % 2)) x
                           (Function.update c.V 15 (c.V x / 128 % 2) x * 2 % 256) }) := by
  rw [emulateCycle_standard c rnd key (by rw [hop]; omega), hop]
  have hhi : (0x800E + x * 256 + y * 16) / 4096 = 8 := by omega
  have hn : (0x800E + x * 256 + y * 16) % 16 = 14 := by omega
  have hx' : (0x800E + x * 256 + y * 16) / 256 % 16 = x := by omega
  simp only [execStandard, hhi, hn, hx']
  try rw [hx']
  try rfl

/-- Effect of `8xy5` when neither operand is `V[0xF]`: the strict
not-borrow flag, then the wrapped difference. -/
theorem sub5_effect (c : Chip8) (rnd key x y : Nat)
    (hx16 : x < 16) (hy16 : y < 16) (hx : x ≠ 15) (hy : y ≠ 15)
    (hop : fetchOpcode c = 0x8005 + x * 256 + y * 16) :
    emulateCycle c rnd key =
      some (tickTimers { c with
                         pc := (c.pc + 2) % 65536,
                         V := Function.update
                           (Function.update c.V 15 (if c.V y < c.V x then 1 else 0)) x
                           ((c.V x + 256 - c.V y) % 256) }) := by
  rw [emulateCycle_standard c rnd key (by rw [hop]; omega), hop]
  have hhi : (0x8005 + x * 256 + y * 16) / 4096 = 8 := by omega
  have hn : (0x8005 + x * 256 + y * 16) % 16 = 5 := by omega
  have hx' : (0x8005 + x * 256 + y * 16) / 256 % 16 = x := by omega
  have hy' : (0x8005 + x * 256 + y * 16) / 16 % 16 = y := by omega
  simp only [execStandard, hhi, hn, hx', hy',
    Function.update_noteq hx, Function.update_noteq hy]
  try rw [hx']
  try rw [hy']
  try rw [Function.update_noteq hx]
  try rw [Function.update_noteq hy]
  try rfl

/-- Effect of `8xy7` when neither operand is `V[0xF]`: the strict reversed
not-borrow flag, then the reversed wrapped difference. -/
theorem sub7_effect (c : Chip8) (rnd key x y : Nat)
    (hx16 : x < 16) (hy16 : y < 16) (hx : x ≠ 15) (hy : y ≠ 15)
    (hop : fetchOpcode c = 0x8007 + x * 256 + y * 16) :
    emulateCycle c rnd key =
      some (tickTimers { c with
                         pc := (c.pc + 2) % 65536,
                         V := Function.update
                           (Function.update c.V 15 (if c.V x < c.V y then 1 else 0)) x
                           ((c.V y + 256 - c.V x) % 256) }) := by
  rw [emulateCycle_standard c rnd key (by rw [hop]; omega), hop]
  have hhi : (0x8007 + x * 256 + y * 16) / 4096 = 8 := by omega
  have hn : (0x8007 + x * 256 + y * 16) % 16 = 7 := by omega
  have hx' : (0x8007 + x * 256 + y * 16) / 256 % 16 = x := by omega
  have hy' : (0x8007 + x * 256 + y * 16) / 16 % 16 = y := by omega
  simp only [execStandard, hhi, hn, hx', hy',
    Function.update_noteq hx, Function.update_noteq hy]
  try rw [hx']
  try rw [hy']
  try rw [Function.update_noteq hx]
  try rw [Function.update_noteq hy]
  try rfl

/-- Effect of `2nnn`: push the already-advanced `pc`, bump `sp`, jump. -/
theorem call_effect (c : Chip8) (rnd key nnn : Nat) (hnnn : nnn < 4096)
    (hop : fetchOpcode c = 0x2000 + nnn) :
    emulateCycle c rnd key =
      some (tickTimers { c with
                         stack := Function.update c.stack c.sp ((c.pc + 2) % 65536),
                         sp := (c.sp + 1) % 256,
                         pc := nnn }) := by
  rw [emulateCycle_standard c rnd key (by rw [hop]; omega), hop]
  have hhi : (0x2000 + nnn) / 4096 = 2 := by omega
  have hnnn' : (0x2000 + nnn) % 4096 = nnn := by omega
  simp only [execStandard, hhi, hnnn']
  try rfl

/-- Effect of `00EE`: drop `sp` by one (`uint8_t` wrap), restore `pc` from
the stack. -/
theorem ret_effect (c : Chip8) (rnd key : Nat)
    (hop : fetchOpcode c = 0x00EE) :
    emulateCycle c rnd key =
      some (tickTimers { c with
                         sp := (c.sp + 255) % 256,
                         pc := c.stack ((c.sp + 255) % 256) }) := by
  rw [emulateCycle_fallthrough c rnd key (by rw [hop]; omega)
    (by rw [hop]; omega) (by rw [hop]; omega) (by rw [hop]; omega)
    (by rw [hop]; omega) (by rw [hop]; omega), hop]
  simp [execStandard]
  try rfl

/-! ## Helper lemmas: timers -/

theorem foldl_preserves {α : Type} (g : Chip8 → Nat) (f : Chip8 → α → Chip8)
    (hf : ∀ c a, g (f c a) = g c) :
    ∀ (l : List α) (c : Chip8), g (l.foldl f c) = g c := by
  intro l
  induction l with
  | nil => intro c; rfl
  | cons a l ih => intro c; rw [List.foldl_cons, ih, hf]

theorem drawPixel_delay (c : Chip8) (x y row col : Nat) (b : Bool) :
    (drawPixel c x y row col b).delay_timer = c.delay_timer := by
  unfold drawPixel; split
  · dsimp only
    split <;> rfl
  · rfl

theorem drawPixel_sound (c : Chip8) (x y row col : Nat) (b : Bool) :
    (drawPixel c x y row col b).sound_timer = c.sound_timer := by
  unfold drawPixel; split
  · dsimp only
    split <;> rfl
  · rfl

theorem execDxyn_delay (c : Chip8) (x y n : Nat) :
    (execDxyn c x y n).delay_timer = c.delay_timer := by
  unfold execDxyn
  dsimp only
  split
  · exact foldl_preserves Chip8.delay_timer _
      (fun c' r => foldl_preserves Chip8.delay_timer _
        (fun c'' col => drawPixel_delay c'' x y r col _) _ c') _ _
  · exact foldl_preserves Chip8.delay_timer _
      (fun c' r => foldl_preserves Chip8.delay_timer _
        (fun c'' col => drawPixel_delay c'' x y r col _) _ c') _ _

theorem execDxyn_sound (c : Chip8) (x y n : Nat) :
    (execDxyn c x y n).sound_timer = c.sound_timer := by
  unfold execDxyn
  dsimp only
  split
  · exact foldl_preserves Chip8.sound_timer _
      (fun c' r => foldl_preserves Chip8.sound_timer _
        (fun c'' col => drawPixel_sound c'' x y r col _) _ c') _ _
  · exact foldl_preserves Chip8.sound_timer _
      (fun c' r => foldl_preserves Chip8.sound_timer _
        (fun c'' col => drawPixel_sound c'' x y r col _) _ c') _ _

theorem scroll_horizontal_delay (c : Chip8) (dir : Int) :
    (scroll_horizontal c dir).delay_timer = c.delay_timer := by
  unfold scroll_horizontal; split <;> rfl

theorem scroll_horizontal_sound (c : Chip8) (dir : Int) :
    (scroll_horizontal c dir).sound_timer = c.sound_timer := by
  unfold scroll_horizontal; split <;> rfl

/-- An extended opcode that produces a next state leaves both timers
untouched. -/
theorem execExtended_timers (c : Chip8) (op : Nat) (r : Chip8)
    (h : execExtended c op = some (some r)) :
    r.delay_timer = c.delay_timer ∧ r.sound_timer = c.sound_timer := by
  unfold execExtended at h
  split at h
  · cases h; exact ⟨scroll_horizontal_delay c 1, scroll_horizontal_sound c 1⟩
  · split at h
    · cases h; exact ⟨scroll_horizontal_delay c (-1), scroll_horizontal_sound c (-1)⟩
    · split at h
      · cases h
      · split at h
        · cases h; exact ⟨rfl, rfl⟩
        · split at h
          · cases h; exact ⟨rfl, rfl⟩
          · split at h
            · cases h; exact ⟨rfl, rfl⟩
            · cases h

/-- The standard switch changes `delay_timer` only on `Fx15`. -/
theorem execStandard_delay (c : Chip8) (op rnd key : Nat)
    (hno : ¬ (op / 4096 = 15 ∧ op % 256 = 0x15)) :
    (execStandard c op rnd key).delay_timer = c.delay_timer := by
  unfold execStandard
  dsimp only
  repeat' split
  all_goals first
    | rfl
    | exact execDxyn_delay _ _ _ _
    | omega

/-- The standard switch changes `sound_timer` only on `Fx18`. -/
theorem execStandard_sound (c : Chip8) (op rnd key : Nat)
    (hno : ¬ (op / 4096 = 15 ∧ op % 256 = 0x18)) :
    (execStandard c op rnd key).sound_timer = c.sound_timer := by
  unfold execStandard
  dsimp only
  repeat' split
  all_goals first
    | rfl
    | exact execDxyn_sound _ _ _ _
    | omega

theorem tickTimers_delay_le (c : Chip8) :
    (tickTimers c).delay_timer ≤ c.delay_timer := by
  unfold tickTimers; dsimp only; split <;> omega

theorem tickTimers_sound_le (c : Chip8) :
    (tickTimers c).sound_timer ≤ c.sound_timer := by
  unfold tickTimers; dsimp only; split <;> omega

/-! ## Helper lemmas: the dispatcher's routing -/

/-- The complete routing of one cycle: the extended effects fire exactly on
the masked patterns (`op & 0xF0FF`, i.e. top nibble and low byte; the
x-nibble is ignored), checked before the standard table. -/
theorem emulateCycle_dispatch (c : Chip8) (rnd key : Nat) :
    emulateCycle c rnd key =
      (if fetchOpcode c / 4096 = 0 ∧ fetchOpcode c % 256 = 0xFB then
        some (scroll_horizontal { c with pc := (c.pc + 2) % 65536 } 1)
      else if fetchOpcode c / 4096 = 0 ∧ fetchOpcode c % 256 = 0xFC then
        some (scroll_horizontal { c with pc := (c.pc + 2) % 65536 } (-1))
      else if fetchOpcode c / 4096 = 0 ∧ fetchOpcode c % 256 = 0xFD then
        none
      else if fetchOpcode c / 4096 = 0 ∧ fetchOpcode c % 256 = 0xFE then
        some (disableExtended { c with pc := (c.pc + 2) % 65536 })
      else if fetchOpcode c / 4096 = 0 ∧ fetchOpcode c % 256 = 0xFF then
        some (enableExtended { c with pc := (c.pc + 2) % 65536 })
      else if fetchOpcode c / 4096 = 0 ∧ fetchOpcode c / 16 % 16 = 0xC then
        some (scroll_down { c with pc := (c.pc + 2) % 65536 } (fetchOpcode c % 16))
      else
        some (tickTimers (execStandard { c with pc := (c.pc + 2) % 65536 }
          (fetchOpcode c) rnd key))) := by
  by_cases h1 : fetchOpcode c / 4096 = 0 ∧ fetchOpcode c % 256 = 0xFB
  · simp [emulateCycle, execExtended, h1]
  by_cases h2 : fetchOpcode c / 4096 = 0 ∧ fetchOpcode c % 256 = 0xFC
  · simp [emulateCycle, execExtended, h1, h2]
  by_cases h3 : fetchOpcode c / 4096 = 0 ∧ fetchOpcode c % 256 = 0xFD
  · simp [emulateCycle, execExtended, h1, h2, h3]
  by_cases h4 : fetchOpcode c / 4096 = 0 ∧ fetchOpcode c % 256 = 0xFE
  · simp [emulateCycle, execExtended, h1, h2, h3, h4]
  by_cases h5 : fetchOpcode c / 4096 = 0 ∧ fetchOpcode c % 256 = 0xFF
  · simp [emulateCycle, execExtended, h1, h2, h3, h4, h5]
  by_cases h6 : fetchOpcode c / 4096 = 0 ∧ fetchOpcode c / 16 % 16 = 0xC
  · simp_all [emulateCycle, execExtended]
  · simp [emulateCycle, execExtended, h1, h2, h3, h4, h5, h6]

/-! ## The claims -/

/-- C1 (amended): a `Dxyn` cycle draws exactly the sprite the spec
describes — an 8×`n` sprite from `memory[I..I+n]`, or a 16×16 sprite from
`memory[I..I+32]` in extended mode with `n = 0`, each set bit XORing the
cell `((Vx+col) mod logical_width, (Vy+row) mod logical_height)` at stride
`MAX_WIDTH`, with `VF` reset at the start and becoming 1 iff some XOR turned
a 1 cell to 0 — *provided neither operand register index is `F`* (the code
re-reads `V[x]`/`V[y]` at every pixel, so the mid-draw `VF` writes perturb
the coordinates when `x = F` or `y = F`). -/
theorem dxyn_draw_matches_spec (c : Chip8) (rnd key x y n : Nat)
    (hx16 : x < 16) (hy16 : y < 16) (hn16 : n < 16)
    (hx : x ≠ 15) (hy : y ≠ 15)
    (hop : fetchOpcode c = 0xD000 + x * 256 + y * 16 + n) :
    emulateCycle c rnd key =
      some (tickTimers (specDxyn { c with pc := (c.pc + 2) % 65536 } x y n)) := by
  rw [emulateCycle_standard c rnd key (by rw [hop]; omega), hop]
  have hhi : (0xD000 + x * 256 + y * 16 + n) / 4096 = 13 := by omega
  have hx' : (0xD000 + x * 256 + y * 16 + n) / 256 % 16 = x := by omega
  have hy' : (0xD000 + x * 256 + y * 16 + n) / 16 % 16 = y := by omega
  have hn' : (0xD000 + x * 256 + y * 16 + n) % 16 = n := by omega
  simp only [execStandard, hhi, hx', hy', hn']
  try rw [hx']
  try rw [hy']
  try rw [hn']
  rw [execDxyn_eq_specDxyn _ x y n hx hy]

/-- C1 witness: the `D121` cycle on `drawState` equals the spec draw. -/
theorem dxyn_draw_matches_spec_witness :
    emulateCycle drawState 0 0 =
      some (tickTimers (specDxyn { drawState with
        pc := (drawState.pc + 2) % 65536 } 1 2 1)) :=
  dxyn_draw_matches_spec drawState 0 0 1 2 1 (by decide) (by decide)
    (by decide) (by decide) (by decide) (by decide)

/-- C1 counterexample: with `x = F` the draw does *not* follow the spec's
fixed-coordinate description — on `cexDraw` (sprite row `0xC0`, cell 0 set)
the code lights cell 2 where the spec draw lights cell 1, because the
collision write into `V[0xF]` shifts the re-read `Vx` mid-row. -/
theorem dxyn_draw_matches_spec_counterexample :
    ¬ (∀ (c : Chip8) (x y n : Nat), x < 16 → y < 16 → n < 16 →
        execDxyn c x y n = specDxyn c x y n) := by
  intro h
  have h3 := h cexDraw 15 0 1 (by decide) (by decide) (by decide)
  have e1 : (execDxyn cexDraw 15 0 1).display 2 = 1 := by decide
  rw [h3] at e1
  have e2 : (specDxyn cexDraw 15 0 1).display 2 = 0 := by decide
  exact absurd (e1.symm.trans e2) (by decide)

/-- C2 (amended): `8xy5` sets `VF = 1` exactly when `Vx > Vy` — *strictly*,
so a no-borrow tie `Vx = Vy` yields `VF = 0` — and then stores the wrapped
difference `(Vx - Vy) mod 256` into `Vx`; symmetrically `8xy7` sets
`VF = 1` exactly when `Vy > Vx` and stores `(Vy - Vx) mod 256`.  Stated for
operand registers other than the flag register itself. -/
theorem sub_borrow_flags (c5 c7 : Chip8) (rnd key x y : Nat)
    (hx16 : x < 16) (hy16 : y < 16) (hx : x ≠ 15) (hy : y ≠ 15)
    (hop5 : fetchOpcode c5 = 0x8005 + x * 256 + y * 16)
    (hop7 : fetchOpcode c7 = 0x8007 + x * 256 + y * 16) :
    emulateCycle c5 rnd key =
      some (tickTimers { c5 with
                         pc := (c5.pc + 2) % 65536,
                         V := Function.update
                           (Function.update c5.V 15 (if c5.V y < c5.V x then 1 else 0)) x
                           ((c5.V x + 256 - c5.V y) % 256) }) ∧
    emulateCycle c7 rnd key =
      some (tickTimers { c7 with
                         pc := (c7.pc + 2) % 65536,
                         V := Function.update
                           (Function.update c7.V 15 (if c7.V x < c7.V y then 1 else 0)) x
                           ((c7.V y + 256 - c7.V x) % 256) }) :=
  ⟨sub5_effect c5 rnd key x y hx16 hy16 hx hy hop5,
   sub7_effect c7 rnd key x y hx16 hy16 hx hy hop7⟩

/-- C2 witness: `8125` on `V1 = 7, V2 = 3` and `8127` on the same values. -/
theorem sub_borrow_flags_witness :
    emulateCycle subState 0 0 =
      some (tickTimers { subState with
                         pc := (subState.pc + 2) % 65536,
                         V := Function.update
                           (Function.update subState.V 15
                             (if subState.V 2 < subState.V 1 then 1 else 0)) 1
                           ((subState.V 1 + 256 - subState.V 2) % 256) }) ∧
    emulateCycle subnState 0 0 =
      some (tickTimers { subnState with
                         pc := (subnState.pc + 2) % 65536,
                         V := Function.update
                           (Function.update subnState.V 15
                             (if subnState.V 1 < subnState.V 2 then 1 else 0)) 1
                           ((subnState.V 2 + 256 - subnState.V 1) % 256) }) :=
  sub_borrow_flags subState subnState 0 0 1 2 (by decide) (by decide)
    (by decide) (by decide) (by decide) (by decide)

/-- C2 counterexample: the claim's `VF = 1` iff `Vx ≥ Vy` fails at the tie
`V1 = V2 = 5`: the code's strict `>` leaves `VF = 0` where `≥` demands 1. -/
theorem sub_borrow_flags_counterexample :
    ¬ (∀ (c : Chip8) (rnd key x y : Nat), x < 16 → y < 16 →
        fetchOpcode c = 0x8005 + x * 256 + y * 16 →
        ∀ r, emulateCycle c rnd key = some r → (r.V 15 = 1 ↔ c.V y ≤ c.V x)) := by
  intro h
  have hr := sub5_effect subEqState 0 0 1 2 (by decide) (by decide)
    (by decide) (by decide) (by decide)
  have h2 := h subEqState 0 0 1 2 (by decide) (by decide) (by decide) _ hr
  have h4 := h2.mpr (by decide)
  exact absurd h4 (by decide)

/-- C3 (amended): `Fx1E` adds `Vx` into the `uint16_t` register `I`, so the
stored value is `(I + Vx) mod 2^16` — the sum *does* wrap at 16 bits, not
the literal unmasked sum. -/
theorem fx1e_adds_mod_2_16 (c : Chip8) (rnd key x : Nat) (hx16 : x < 16)
    (hop : fetchOpcode c = 0xF01E + x * 256) :
    emulateCycle c rnd key =
      some (tickTimers { c with pc := (c.pc + 2) % 65536,
                                I := (c.I + c.V x) % 65536 }) :=
  fx1e_effect c rnd key x hx16 hop

/-- C3 witness: `F11E` on `I = 10`, `V1 = 3`. -/
theorem fx1e_adds_mod_2_16_witness :
    emulateCycle addrState 0 0 =
      some (tickTimers { addrState with
                         pc := (addrState.pc + 2) % 65536,
                         I := (addrState.I + addrState.V 1) % 65536 }) :=
  fx1e_adds_mod_2_16 addrState 0 0 1 (by decide) (by decide)

/-- C3 counterexample: at `I = 0xFFFF`, `V1 = 2` the instruction leaves
`I = 1`, not the claim's literal sum `0x10001`. -/
theorem fx1e_adds_mod_2_16_counterexample :
    ¬ (∀ (c : Chip8) (rnd key x : Nat), x < 16 →
        fetchOpcode c = 0xF01E + x * 256 →
        ∀ r, emulateCycle c rnd key = some r → r.I = c.I + c.V x) := by
  intro h
  have hr := fx1e_effect addrOverflowState 0 0 1 (by decide) (by decide)
  have h2 := h addrOverflowState 0 0 1 (by decide) (by decide) _ hr
  exact absurd h2 (by decide)

/-- C4 (amended): the dispatcher routes to the extended effects exactly when
the fetched word matches the *masked* patterns `op & 0xF0FF = 0x00FB..0x00FF`
(top nibble 0 and low byte `FB..FF`, the x-nibble being ignored) or top
nibble 0 with third nibble `C` (scroll-down), checked in this order before
the standard top-nibble table. -/
theorem dispatcher_routes_masked_patterns (c : Chip8) (rnd key : Nat) :
    emulateCycle c rnd key =
      (if fetchOpcode c / 4096 = 0 ∧ fetchOpcode c % 256 = 0xFB then
        some (scroll_horizontal { c with pc := (c.pc + 2) % 65536 } 1)
      else if fetchOpcode c / 4096 = 0 ∧ fetchOpcode c % 256 = 0xFC then
        some (scroll_horizontal { c with pc := (c.pc + 2) % 65536 } (-1))
      else if fetchOpcode c / 4096 = 0 ∧ fetchOpcode c % 256 = 0xFD then
        none
      else if fetchOpcode c / 4096 = 0 ∧ fetchOpcode c % 256 = 0xFE then
        some (disableExtended { c with pc := (c.pc + 2) % 65536 })
      else if fetchOpcode c / 4096 = 0 ∧ fetchOpcode c % 256 = 0xFF then
        some (enableExtended { c with pc := (c.pc + 2) % 65536 })
      else if fetchOpcode c / 4096 = 0 ∧ fetchOpcode c / 16 % 16 = 0xC then
        some (scroll_down { c with pc := (c.pc + 2) % 65536 } (fetchOpcode c % 16))
      else
        some (tickTimers (execStandard { c with pc := (c.pc + 2) % 65536 }
          (fetchOpcode c) rnd key))) :=
  emulateCycle_dispatch c rnd key

/-- C4 counterexample: opcode `0x01FB` matches none of the claim's full
16-bit patterns, so under the claim it would fall to the standard table
(a no-op plus a timer tick); the code instead scrolls right and returns
without ticking — observable on `maskedScrollState` through `delay_timer`,
which stays 5 where the claim demands 4. -/
theorem dispatcher_routes_masked_patterns_counterexample :
    ¬ (∀ (c : Chip8) (rnd key : Nat),
        fetchOpcode c ≠ 0x00FB → fetchOpcode c ≠ 0x00FC → fetchOpcode c ≠ 0x00FD →
        fetchOpcode c ≠ 0x00FE → fetchOpcode c ≠ 0x00FF → fetchOpcode c / 16 ≠ 0xC →
        emulateCycle c rnd key =
          some (tickTimers (execStandard { c with pc := (c.pc + 2) % 65536 }
            (fetchOpcode c) rnd key))) := by
  intro h
  have h2 := h maskedScrollState 0 0 (by decide) (by decide) (by decide)
    (by decide) (by decide) (by decide)
  have h3 : (emulateCycle maskedScrollState 0 0).elim 99
      (fun s => s.delay_timer) = 5 := by decide
  rw [h2] at h3
  exact absurd h3 (by decide)

/-- C5 (amended): drawing the same sprite twice at the same position — with
`I`, `Vx`, `Vy`, mode and memory unchanged in between — restores every
display cell, and `VF` after the second draw is exactly the spec-level
collision flag of the second draw; *provided neither operand register index
is `F`* (for `x = F` or `y = F` the first draw's `VF` writes move the
second draw's pixels). -/
theorem dxyn_double_draw_restores (c : Chip8) (x y n : Nat)
    (hx : x ≠ 15) (hy : y ≠ 15) (i : Nat) :
    (execDxyn (execDxyn c x y n) x y n).display i = c.display i ∧
    (execDxyn (execDxyn c x y n) x y n).V 15 =
      (specDxyn (execDxyn c x y n) x y n).V 15 := by
  constructor
  · rw [execDxyn_eq_specDxyn c x y n hx hy,
      execDxyn_eq_specDxyn (specDxyn c x y n) x y n hx hy,
      specDxyn_display, specDxyn_display, targetList_specDxyn c x y n hx hy]
    exact applyToggles_twice _ _ _
  · rw [execDxyn_eq_specDxyn (execDxyn c x y n) x y n hx hy]

/-- C5 witness: double-drawing the two-pixel sprite of `cexDraw` at
`(V1, V2) = (0, 0)` restores cell 0 (which started set). -/
theorem dxyn_double_draw_restores_witness :
    (execDxyn (execDxyn cexDraw 1 2 1) 1 2 1).display 0 = cexDraw.display 0 ∧
    (execDxyn (execDxyn cexDraw 1 2 1) 1 2 1).V 15 =
      (specDxyn (execDxyn cexDraw 1 2 1) 1 2 1).V 15 :=
  dxyn_double_draw_restores cexDraw 1 2 1 (by decide) (by decide) 0

/-- C5 counterexample: with `x = F` the double draw does *not* restore the
display: on `cexDraw`, cell 1 ends lit although it started clear. -/
theorem dxyn_double_draw_restores_counterexample :
    ¬ (∀ (c : Chip8) (x y n : Nat), x < 16 → y < 16 → n < 16 →
        (∀ i, (execDxyn (execDxyn c x y n) x y n).display i = c.display i) ∧
        (execDxyn (execDxyn c x y n) x y n).V 15 =
          (specDxyn (execDxyn c x y n) x y n).V 15) := by
  intro h
  exact absurd ((h cexDraw 15 0 1 (by decide) (by decide) (by decide)).1 1)
    (by decide)

/-- Unless the instruction is `Fx15`, a completed cycle never increases the
delay timer. -/
theorem emulateCycle_delay_le (c : Chip8) (rnd key : Nat) (c1 : Chip8)
    (hrun : emulateCycle c rnd key = some c1)
    (hd : ¬ (fetchOpcode c / 4096 = 15 ∧ fetchOpcode c % 256 = 0x15)) :
    c1.delay_timer ≤ c.delay_timer := by
  unfold emulateCycle at hrun
  dsimp only at hrun
  rcases hE : execExtended { c with pc := (c.pc + 2) % 65536 } (fetchOpcode c)
    with _ | r
  · rw [hE] at hrun
    simp only [] at hrun
    have h1 := tickTimers_delay_le
      (execStandard { c with pc := (c.pc + 2) % 65536 } (fetchOpcode c) rnd key)
    have h2 := execStandard_delay { c with pc := (c.pc + 2) % 65536 }
      (fetchOpcode c) rnd key hd
    have h3 : ({ c with pc := (c.pc + 2) % 65536 } : Chip8).delay_timer =
      c.delay_timer := rfl
    cases hrun
    omega
  · rw [hE] at hrun
    cases r with
    | none => simp at hrun
    | some s =>
      simp only [Option.some.injEq] at hrun
      have h1 := (execExtended_timers _ _ _ hE).1
      have h3 : ({ c with pc := (c.pc + 2) % 65536 } : Chip8).delay_timer =
        c.delay_timer := rfl
      subst hrun
      omega

/-- Unless the instruction is `Fx18`, a completed cycle never increases the
sound timer. -/
theorem emulateCycle_sound_le (c : Chip8) (rnd key : Nat) (c1 : Chip8)
    (hrun : emulateCycle c rnd key = some c1)
    (hs : ¬ (fetchOpcode c / 4096 = 15 ∧ fetchOpcode c % 256 = 0x18)) :
    c1.sound_timer ≤ c.sound_timer := by
  unfold emulateCycle at hrun
  dsimp only at hrun
  rcases hE : execExtended { c with pc := (c.pc + 2) % 65536 } (fetchOpcode c)
    with _ | r
  · rw [hE] at hrun
    simp only [] at hrun
    have h1 := tickTimers_sound_le
      (execStandard { c with pc := (c.pc + 2) % 65536 } (fetchOpcode c) rnd key)
    have h2 := execStandard_sound { c with pc := (c.pc + 2) % 65536 }
      (fetchOpcode c) rnd key hs
    have h3 : ({ c with pc := (c.pc + 2) % 65536 } : Chip8).sound_timer =
      c.sound_timer := rfl
    cases hrun
    omega
  · rw [hE] at hrun
    cases r with
    | none => simp at hrun
    | some s =>
      simp only [Option.some.injEq] at hrun
      have h1 := (execExtended_timers _ _ _ hE).2
      have h3 : ({ c with pc := (c.pc + 2) % 65536 } : Chip8).sound_timer =
        c.sound_timer := rfl
      subst hrun
      omega

/-- C6: the timer tick takes each timer down by one when nonzero and leaves
a zero timer at zero (Nat truncated subtraction states both at once); and
across any completed instruction whose opcode is not `Fx15` (resp. `Fx18`),
the delay (resp. sound) timer never increases. -/
theorem timers_tick_and_monotone (c : Chip8) (rnd key : Nat) (c1 : Chip8)
    (hrun : emulateCycle c rnd key = some c1)
    (hd : ¬ (fetchOpcode c / 4096 = 15 ∧ fetchOpcode c % 256 = 0x15))
    (hs : ¬ (fetchOpcode c / 4096 = 15 ∧ fetchOpcode c % 256 = 0x18)) :
    (tickTimers c).delay_timer = c.delay_timer - 1 ∧
    (tickTimers c).sound_timer = c.sound_timer - 1 ∧
    c1.delay_timer ≤ c.delay_timer ∧ c1.sound_timer ≤ c.sound_timer := by
  refine ⟨?_, ?_, emulateCycle_delay_le c rnd key c1 hrun hd,
    emulateCycle_sound_le c rnd key c1 hrun hs⟩
  · unfold tickTimers; dsimp only; split <;> omega
  · unfold tickTimers; dsimp only; split <;> omega

/-- C6 witness: the `6105` cycle on `ldState` (timers 3 and 2). -/
theorem timers_tick_and_monotone_witness :
    (tickTimers ldState).delay_timer = ldState.delay_timer - 1 ∧
    (tickTimers ldState).sound_timer = ldState.sound_timer - 1 ∧
    (Option.getD (emulateCycle ldState 0 0) zeroState).delay_timer ≤
      ldState.delay_timer ∧
    (Option.getD (emulateCycle ldState 0 0) zeroState).sound_timer ≤
      ldState.sound_timer :=
  timers_tick_and_monotone ldState 0 0
    (Option.getD (emulateCycle ldState 0 0) zeroState)
    (by rfl) (by decide) (by decide)

set_option maxRecDepth 4000 in
/-- C7: loading fails exactly on an unreadable image (`none`) or one longer
than `4096 - 0x200` bytes; the too-large failure leaves the state untouched;
on success the bytes land at `0x200` and every other memory cell is
unchanged; and `main` exits with code 1 on any load failure before a cycle
runs, while a loadable image reaches the execution loop. -/
theorem load_rom_spec (c : Chip8) (big small : List Nat) (k a : Nat)
    (hbig : big.length > MEMORY_SIZE - START_ADDRESS)
    (hsmall : small.length ≤ MEMORY_SIZE - START_ADDRESS)
    (hk : k < small.length)
    (ha : a < START_ADDRESS ∨ START_ADDRESS + small.length ≤ a) :
    (loadROM c none).2 = false ∧
    loadROM c (some big) = (c, false) ∧
    (loadROM c (some small)).2 = true ∧
    (loadROM c (some small)).1.memory (START_ADDRESS + k) = small.getD k 0 ∧
    (loadROM c (some small)).1.memory a = c.memory a ∧
    runMain none = Except.error 1 ∧
    runMain (some big) = Except.error 1 ∧
    (runMain (some small)).isOk = true := by
  have hns : ¬ (small.length > MEMORY_SIZE - START_ADDRESS) := by omega
  refine ⟨rfl, ?_, ?_, ?_, ?_, rfl, ?_, ?_⟩
  · simp [loadROM, hbig]
  · simp [loadROM, hns]
  · simp only [loadROM]
    rw [if_neg hns]
    show (if START_ADDRESS ≤ START_ADDRESS + k ∧
            START_ADDRESS + k < START_ADDRESS + small.length
          then small.getD (START_ADDRESS + k - START_ADDRESS) 0
          else c.memory (START_ADDRESS + k)) = small.getD k 0
    rw [if_pos ⟨by omega, by omega⟩]
    congr 1
    omega
  · simp only [loadROM]
    rw [if_neg hns]
    show (if START_ADDRESS ≤ a ∧ a < START_ADDRESS + small.length
          then small.getD (a - START_ADDRESS) 0
          else c.memory a) = c.memory a
    rw [if_neg (by omega)]
  · simp [runMain, loadROM, hbig]
  · simp [runMain, loadROM, hns, Except.isOk, Except.toBool]

/-- C7 witness: a 3585-byte image is rejected with the state untouched, a
3-byte image `[7, 8, 9]` loads at `0x200` with byte 1 readable at `0x201`
and address 0 untouched. -/
theorem load_rom_spec_witness :
    (loadROM zeroState none).2 = false ∧
    loadROM zeroState (some (List.replicate 3585 0)) = (zeroState, false) ∧
    (loadROM zeroState (some [7, 8, 9])).2 = true ∧
    (loadROM zeroState (some [7, 8, 9])).1.memory (START_ADDRESS + 1) =
      [7, 8, 9].getD 1 0 ∧
    (loadROM zeroState (some [7, 8, 9])).1.memory 0 = zeroState.memory 0 ∧
    runMain none = Except.error 1 ∧
    runMain (some (List.replicate 3585 0)) = Except.error 1 ∧
    (runMain (some [7, 8, 9])).isOk = true :=
  load_rom_spec zeroState (List.replicate 3585 0) [7, 8, 9] 1 0
    (by norm_num [MEMORY_SIZE, START_ADDRESS])
    (by norm_num [MEMORY_SIZE, START_ADDRESS])
    (by norm_num) (by norm_num [START_ADDRESS])

/-- C8: `pc` is advanced by 2 right after the fetch; `2nnn` pushes the
advanced `pc` at `stack[sp]`, bumps `sp`, and jumps to `nnn`; `00EE` drops
`sp` and restores `pc` from the stack — so a call at `A` followed by the
matching return leaves `pc = A + 2` with `sp` back at its pre-call value. -/
theorem call_return_roundtrip (c : Chip8) (rnd key nnn : Nat)
    (hnnn : nnn < 4096) (hsp : c.sp < 256) (hpc : c.pc + 2 < 65536)
    (hfetch : fetchOpcode c = 0x2000 + nnn)
    (hm0 : c.memory nnn = 0x00) (hm1 : c.memory (nnn + 1) = 0xEE) :
    (emulateCycle c rnd key).elim False (fun c1 =>
      c1.pc = nnn ∧ c1.sp = (c.sp + 1) % 256 ∧ c1.stack c.sp = c.pc + 2) ∧
    (run2 c rnd key).elim False (fun c2 =>
      c2.pc = c.pc + 2 ∧ c2.sp = c.sp) := by
  have hcall := call_effect c rnd key nnn hnnn hfetch
  constructor
  · rw [hcall]
    simp only [Option.elim]
    refine ⟨rfl, rfl, ?_⟩
    show Function.update c.stack c.sp ((c.pc + 2) % 65536) c.sp = c.pc + 2
    rw [Function.update_same]
    omega
  · unfold run2
    rw [hcall]
    simp only [Option.some_bind]
    have hfetch1 : fetchOpcode (tickTimers { c with
        stack := Function.update c.stack c.sp ((c.pc + 2) % 65536),
        sp := (c.sp + 1) % 256, pc := nnn }) = 0x00EE := by
      show c.memory nnn * 256 + c.memory (nnn + 1) = 0x00EE
      rw [hm0, hm1]
    rw [ret_effect _ rnd key hfetch1]
    simp only [Option.elim]
    constructor
    · show Function.update c.stack c.sp ((c.pc + 2) % 65536)
        (((c.sp + 1) % 256 + 255) % 256) = c.pc + 2
      have hsp' : ((c.sp + 1) % 256 + 255) % 256 = c.sp := by omega
      rw [hsp', Function.update_same]
      omega
    · show ((c.sp + 1) % 256 + 255) % 256 = c.sp
      omega

/-- C8 witness: the spec's scenario — `2208` at `0x200`, `00EE` at `0x208`
— ends with `pc = 0x202` and `sp` restored to 0. -/
theorem call_return_roundtrip_witness :
    (emulateCycle callState 0 0).elim False (fun c1 =>
      c1.pc = 0x208 ∧ c1.sp = (callState.sp + 1) % 256 ∧
      c1.stack callState.sp = callState.pc + 2) ∧
    (run2 callState 0 0).elim False (fun c2 =>
      c2.pc = callState.pc + 2 ∧ c2.sp = callState.sp) :=
  call_return_roundtrip callState 0 0 0x208 (by decide) (by decide)
    (by decide) (by decide) (by decide) (by decide)

/-- C9: every word with top nibble 5 behaves as skip-if-`Vx = Vy`, and every
word with top nibble 9 as skip-if-`Vx ≠ Vy`, whatever the low nibble is —
the dispatcher never looks at it. -/
theorem skip_compare_ignores_low_nibble (c5 c9 : Chip8) (rnd key : Nat)
    (hop5 : fetchOpcode c5 / 4096 = 5) (hop9 : fetchOpcode c9 / 4096 = 9) :
    emulateCycle c5 rnd key = some (tickTimers
      (if c5.V (fetchOpcode c5 / 256 % 16) = c5.V (fetchOpcode c5 / 16 % 16)
       then { c5 with pc := ((c5.pc + 2) % 65536 + 2) % 65536 }
       else { c5 with pc := (c5.pc + 2) % 65536 })) ∧
    emulateCycle c9 rnd key = some (tickTimers
      (if c9.V (fetchOpcode c9 / 256 % 16) = c9.V (fetchOpcode c9 / 16 % 16)
       then { c9 with pc := (c9.pc + 2) % 65536 }
       else { c9 with pc := ((c9.pc + 2) % 65536 + 2) % 65536 })) :=
  ⟨skip5_effect c5 rnd key hop5, skip9_effect c9 rnd key hop9⟩

/-- C9 witness: `0x5123` (equal registers, low nibble 3) skips, and
`0x9127` (unequal registers, low nibble 7) skips. -/
theorem skip_compare_ignores_low_nibble_witness :
    emulateCycle skipEqState 0 0 = some (tickTimers
      (if skipEqState.V (fetchOpcode skipEqState / 256 % 16) =
          skipEqState.V (fetchOpcode skipEqState / 16 % 16)
       then { skipEqState with pc := ((skipEqState.pc + 2) % 65536 + 2) % 65536 }
       else { skipEqState with pc := (skipEqState.pc + 2) % 65536 })) ∧
    emulateCycle skipNeState 0 0 = some (tickTimers
      (if skipNeState.V (fetchOpcode skipNeState / 256 % 16) =
          skipNeState.V (fetchOpcode skipNeState / 16 % 16)
       then { skipNeState with pc := (skipNeState.pc + 2) % 65536 }
       else { skipNeState with pc := ((skipNeState.pc + 2) % 65536 + 2) % 65536 })) :=
  skip_compare_ignores_low_nibble skipEqState skipNeState 0 0
    (by decide) (by decide)

/-- C10: `8xy6` writes the pre-shift bit 0 of `V[x]` into `VF` and then
halves `V[x]` in place (so for `x = F` the shift reads the just-written
flag); `8xyE` writes the pre-shift bit 7 into `VF` and doubles `V[x]` mod
256.  The result never mentions `y`, so `V[y]` is ignored. -/
theorem shift_ignores_vy (c6 cE : Chip8) (rnd key x y : Nat)
    (hx16 : x < 16) (hy16 : y < 16)
    (hop6 : fetchOpcode c6 = 0x8006 + x * 256 + y * 16)
    (hopE : fetchOpcode cE = 0x800E + x * 256 + y * 16) :
    emulateCycle c6 rnd key =
      some (tickTimers { c6 with
                         pc := (c6.pc + 2) % 65536,
                         V := Function.update
                           (Function.update c6.V 15 (c6.V x % 2)) x
                           (Function.update c6.V 15 (c6.V x % 2) x / 2) }) ∧
    emulateCycle cE rnd key =
      some (tickTimers { cE with
                         pc := (cE.pc + 2) % 65536,
                         V := Function.update
                           (Function.update cE.V 15 (cE.V x / 128 % 2)) x
                           (Function.update cE.V 15 (cE.V x / 128 % 2) x * 2 % 256) }) :=
  ⟨shr_effect c6 rnd key x y hx16 hy16 hop6,
   shl_effect cE rnd key x y hx16 hy16 hopE⟩

/-- C10 witness: `8126` on `V1 = 5` and `812E` on `V1 = 0xC1`, with
`V2 = 77` resp. `33` playing no role. -/
theorem shift_ignores_vy_witness :
    emulateCycle shrState 0 0 =
      some (tickTimers { shrState with
                         pc := (shrState.pc + 2) % 65536,
                         V := Function.update
                           (Function.update shrState.V 15 (shrState.V 1 % 2)) 1
                           (Function.update shrState.V 15 (shrState.V 1 % 2) 1 / 2) }) ∧
    emulateCycle shlState 0 0 =
      some (tickTimers { shlState with
                         pc := (shlState.pc + 2) % 65536,
                         V := Function.update
                           (Function.update shlState.V 15 (shlState.V 1 / 128 % 2)) 1
                           (Function.update shlState.V 15 (shlState.V 1 / 128 % 2) 1
                             * 2 % 256) }) :=
  shift_ignores_vy shrState shlState 0 0 1 2 (by decide) (by decide)
    (by decide) (by decide)

end Cupid8
